import Mathlib

/-!
Shallow embedding of `src/app/sonarr_bangumi_importer.py`.

The program keeps a SQLite table `tvdb_cache (series_name UNIQUE, tvdb_id, created_at)`
and exposes one Flask route.  We model:

* a table row as `Row`; the database handle as `DB`, whose `ok` flag is `false`
  when the store is inaccessible (every `sqlite3.connect` raises then);
* timestamps as integers on a single time axis (`created_at`, `datetime.now()`,
  and the expiry window `timedelta(days=expire_days)` all in the same unit), so
  the code's comparison `created_at > now - expire` keeps its exact shape;
* the Sonarr lookup HTTP call as an oracle `LookupEnv : String → LookupOutcome`:
  `reqError` is any `requests.exceptions.RequestException` (connection error,
  timeout, `raise_for_status` on a non-2xx reply), and `ok p` a reply whose
  parsed JSON body is `p : Payload`.  `Payload.notList truthy` is a JSON value
  that is not a list (its Python truthiness recorded), `Payload.list rs` a list
  whose elements expose an optional `tvdbId` field (`none` = field missing);
* the Bangumi collection HTTP call as `BgmOutcome`: `failure` for any raising
  call or malformed collection payload, `ok names` for a reply yielding the
  listed `item['name']` values in order;
* Python exceptions as `Except Unit`: `Except.error ()` is an exception
  propagating out of the modelled fragment.
-/

/-- Decidable equality for `Except`, so that concrete runs of the modelled
functions can be checked by `decide`. -/
def Except.decEq {ε : Type u} {α : Type v} [DecidableEq ε] [DecidableEq α] :
    DecidableEq (Except ε α)
  | .error e, .error f =>
    if h : e = f then .isTrue (by rw [h])
    else .isFalse (by intro hc; injection hc; contradiction)
  | .error _, .ok _ => .isFalse (by intro h; exact Except.noConfusion h)
  | .ok _, .error _ => .isFalse (by intro h; exact Except.noConfusion h)
  | .ok a, .ok b =>
    if h : a = b then .isTrue (by rw [h])
    else .isFalse (by intro hc; injection hc; contradiction)

instance {ε : Type u} {α : Type v} [DecidableEq ε] [DecidableEq α] :
    DecidableEq (Except ε α) := Except.decEq

/-- One row of the `tvdb_cache` table: `series_name`, `tvdb_id`, `created_at`. -/
structure Row where
  seriesName : String
  tvdbId : Int
  createdAt : Int
  deriving DecidableEq

/-- The cache database: its rows, and whether the store is accessible
(`ok = false` models `sqlite3.connect` raising at every operation). -/
structure DB where
  rows : List Row
  ok : Bool
  deriving DecidableEq

/-- One element of the Sonarr lookup result list: its `tvdbId` field,
`none` when the field is missing (subscripting then raises `KeyError`). -/
structure SeriesResult where
  tvdbId : Option Int
  deriving DecidableEq

/-- The parsed JSON body of a successful lookup reply. -/
inductive Payload where
  /-- A JSON value that is not a list; `truthy` is its Python truthiness
  (`\x7b\x7d`, `""`, `null`, `0`, `false` are falsy, everything else truthy). -/
  | notList (truthy : Bool)
  /-- A JSON list of result objects. -/
  | list (results : List SeriesResult)
  deriving DecidableEq

/-- Python falsiness of the payload, as tested by `if not results:`. -/
def Payload.falsy : Payload → Bool
  | .notList t => !t
  | .list rs => rs.isEmpty

/-- Outcome of the `requests.get` to `/api/v3/series/lookup` for a given term. -/
inductive LookupOutcome where
  /-- A `requests.exceptions.RequestException`: network error, timeout, or
  non-success HTTP status via `raise_for_status`. -/
  | reqError
  /-- A successful reply with parsed body `payload`. -/
  | ok (payload : Payload)
  deriving DecidableEq

/-- The external lookup service, as a function from search term to outcome. -/
abbrev LookupEnv := String → LookupOutcome

/-- Outcome of the `requests.get` to the Bangumi collection endpoint. -/
inductive BgmOutcome where
  /-- Any failure contacting the tracking service: network error, timeout,
  non-success status, or a collection payload the comprehension cannot read. -/
  | failure
  /-- A successful reply whose items carry the given names, in response order. -/
  | ok (names : List String)

/-- One element of the served watching list: `title` and `tvdbId`. -/
structure CollectionItem where
  title : String
  tvdbId : Int
  deriving DecidableEq

namespace TVDBCache

/-- `TVDBCache.get`: `SELECT tvdb_id, created_at FROM tvdb_cache WHERE
series_name = ?`, then return the id when the row exists and
`created_at > now - expire`, else `None`.  Errors when the store is down. -/
def get (expire now : Int) (db : DB) (name : String) : Except Unit (Option Int) :=
  if db.ok then
    Except.ok
      (match db.rows.find? (fun r => r.seriesName == name) with
        | some r => if now - expire < r.createdAt then some r.tvdbId else none
        | none => none)
  else Except.error ()

/-- Row-level effect of `REPLACE INTO tvdb_cache … VALUES (?, ?, ?)`:
SQLite deletes every row conflicting on the `series_name` UNIQUE constraint,
then inserts the new row. -/
def setRows (rows : List Row) (name : String) (id t : Int) : List Row :=
  rows.filter (fun r => !(r.seriesName == name)) ++ [⟨name, id, t⟩]

/-- `TVDBCache.set`: `REPLACE INTO` the row for `name` with the current
timestamp.  Errors when the store is down. -/
def set (db : DB) (name : String) (id now : Int) : Except Unit DB :=
  if db.ok then Except.ok ⟨setRows db.rows name id now, db.ok⟩ else Except.error ()

end TVDBCache

/-- Body of the `try:` block of `lookup_series_by_name` after the cache miss:
the request, `raise_for_status`, the `if not results` guard,
`results[0]['tvdbId']`, and the cache write.  Only `RequestException` is
caught (yielding `0`); subscripting a truthy non-list (`TypeError` /
`KeyError`), a missing `tvdbId` field (`KeyError`), and storage errors from
`TVDBCache.set` all escape. -/
def lookupViaApi (env : LookupEnv) (now : Int) (db : DB) (name : String) :
    Except Unit (Int × DB) :=
  match env name with
  | .reqError => Except.ok (0, db)
  | .ok p =>
    if p.falsy then Except.ok (0, db)
    else
      match p with
      | .notList _ => Except.error ()
      | .list [] => Except.ok (0, db)
      | .list (r :: _) =>
        match r.tvdbId with
        | none => Except.error ()
        | some id =>
          match TVDBCache.set db name id now with
          | .error e => Except.error e
          | .ok db' => Except.ok (id, db')

/-- `lookup_series_by_name`: `if cached_id := TVDBCache.get(series_name):
return cached_id` — the walrus test is Python truthiness, so both `None` and
a cached `0` fall through to the API call; a storage error from the cache
read escapes (the read sits before the `try:`). -/
def lookup_series_by_name (env : LookupEnv) (expire now : Int) (db : DB)
    (name : String) : Except Unit (Int × DB) :=
  match TVDBCache.get expire now db name with
  | .error e => Except.error e
  | .ok (some cid) =>
    if cid = 0 then lookupViaApi env now db name else Except.ok (cid, db)
  | .ok none => lookupViaApi env now db name

/-- The list comprehension of `get_bgm_collection`: items are resolved left to
right, threading the database; the first uncaught exception aborts the
comprehension (`none`), keeping the database state reached so far. -/
def mapResolve (env : LookupEnv) (expire now : Int) :
    DB → List String → Option (List CollectionItem) × DB
  | db, [] => (some [], db)
  | db, n :: rest =>
    match lookup_series_by_name env expire now db n with
    | .error _ => (none, db)
    | .ok (id, db') =>
      match mapResolve env expire now db' rest with
      | (none, db'') => (none, db'')
      | (some items, db'') => (some (⟨n, id⟩ :: items), db'')

/-- `get_bgm_collection`: fetch the watching collection and build one
`{"title": name, "tvdbId": lookup_series_by_name(name)}` per item; the
enclosing `except Exception` turns any failure — of the collection call or of
any resolution step — into `[]`. -/
def get_bgm_collection (bgm : BgmOutcome) (env : LookupEnv) (expire now : Int)
    (db : DB) : List CollectionItem × DB :=
  match bgm with
  | .failure => ([], db)
  | .ok names =>
    match mapResolve env expire now db names with
    | (some items, db') => (items, db')
    | (none, db') => ([], db')

/-- The `/watching-list` route: `jsonify(get_bgm_collection())`, always an
HTTP 200 with the (possibly empty) item list as body. -/
def get_list (bgm : BgmOutcome) (env : LookupEnv) (expire now : Int) (db : DB) :
    Nat × List CollectionItem :=
  (200, (get_bgm_collection bgm env expire now db).1)

/-- A lookup outcome whose handling never raises out of
`lookup_series_by_name`: a request error (caught), a falsy payload, or a
non-empty list whose first element has the `tvdbId` field. -/
def LookupOutcome.benign : LookupOutcome → Bool
  | .reqError => true
  | .ok (.notList t) => !t
  | .ok (.list []) => true
  | .ok (.list (r :: _)) => r.tvdbId.isSome

/-- A cache operation, as issued against the store: a `SELECT` (pure read)
or a `REPLACE INTO`. -/
inductive CacheOp where
  | opGet (name : String) (time : Int)
  | opSet (name : String) (id : Int) (time : Int)

/-- Effect of one cache operation on the table rows: `get` reads only,
`set` upserts. -/
def applyOp (rows : List Row) : CacheOp → List Row
  | .opGet _ _ => rows
  | .opSet n i t => TVDBCache.setRows rows n i t

/-- Table contents after running a sequence of cache operations against the
freshly created (empty) table of `init_db`. -/
def runOps (ops : List CacheOp) : List Row :=
  ops.foldl applyOp []

/-! ## Helper lemmas -/

/-- A cache read that did not raise was made on an accessible store. -/
lemma db_ok_of_get_ok {expire now : Int} {db : DB} {name : String}
    {v : Option Int} (h : TVDBCache.get expire now db name = Except.ok v) :
    db.ok = true := by
  cases hok : db.ok with
  | true => rfl
  | false => simp [TVDBCache.get, hok] at h

/-- In a row list with no duplicate names, `find?` on a name returns exactly
the member row carrying that name. -/
lemma find?_eq_of_mem_nodup {l : List Row} {r : Row} {name : String}
    (hnd : (l.map Row.seriesName).Nodup) (hr : r ∈ l) (hname : r.seriesName = name) :
    l.find? (fun x => x.seriesName == name) = some r := by
  induction l with
  | nil => cases hr
  | cons a t ih =>
    rw [List.map_cons, List.nodup_cons] at hnd
    rcases List.mem_cons.mp hr with rfl | hrt
    · simp [List.find?_cons, hname]
    · have hane : (a.seriesName == name) = false := by
        simp only [beq_eq_false_iff_ne, ne_eq]
        intro he
        exact hnd.1 (he ▸ hname ▸ List.mem_map_of_mem Row.seriesName hrt)
      simp only [List.find?_cons, hane]
      exact ih hnd.2 hrt

/-! ## C1 -/

/-- C1: on an accessible store, `TVDBCache.get` never raises, and it returns
a stored identifier exactly when a row for that exact name exists whose age
satisfies `now - createdAt < expire`; in every other case it returns `none`. -/
theorem c1_cache_get_contract (expire now : Int) (db : DB) (name : String)
    (hok : db.ok = true) (hnd : (db.rows.map Row.seriesName).Nodup) :
    (∃ v, TVDBCache.get expire now db name = Except.ok v) ∧
    ∀ id : Int, (TVDBCache.get expire now db name = Except.ok (some id) ↔
      ∃ r ∈ db.rows, r.seriesName = name ∧ r.tvdbId = id ∧ now - r.createdAt < expire) := by
  have hget : TVDBCache.get expire now db name =
      Except.ok (match db.rows.find? (fun r => r.seriesName == name) with
        | some r => if now - expire < r.createdAt then some r.tvdbId else none
        | none => none) := by
    simp [TVDBCache.get, hok]
  refine ⟨⟨_, hget⟩, ?_⟩
  intro id
  rw [hget]
  constructor
  · intro h
    cases hf : db.rows.find? (fun r => r.seriesName == name) with
    | none => rw [hf] at h; simp at h
    | some r =>
      rw [hf] at h
      have hmem := List.mem_of_find?_eq_some hf
      have hrname : r.seriesName = name := by
        have := List.find?_some hf
        simpa using this
      by_cases hc : now - expire < r.createdAt
      · simp only [hc, if_true, Except.ok.injEq, Option.some.injEq] at h
        exact ⟨r, hmem, hrname, h, by omega⟩
      · simp [hc] at h
  · rintro ⟨r, hmem, hrname, hid, hfresh⟩
    have hc : now - expire < r.createdAt := by omega
    rw [find?_eq_of_mem_nodup hnd hmem hrname]
    simp [hc, hid]

/-- Witness for C1 at a concrete store: a single fresh row for "X". -/
theorem c1_witness :
    ((⟨[⟨"X", 7, 100⟩], true⟩ : DB).ok = true) ∧
    (((⟨[⟨"X", 7, 100⟩], true⟩ : DB).rows.map Row.seriesName).Nodup) ∧
    ((∃ v, TVDBCache.get 30 110 ⟨[⟨"X", 7, 100⟩], true⟩ "X" = Except.ok v) ∧
     ∀ id : Int, (TVDBCache.get 30 110 ⟨[⟨"X", 7, 100⟩], true⟩ "X" = Except.ok (some id) ↔
       ∃ r ∈ (⟨[⟨"X", 7, 100⟩], true⟩ : DB).rows,
         r.seriesName = "X" ∧ r.tvdbId = id ∧ 110 - r.createdAt < 30)) :=
  ⟨rfl, by decide, c1_cache_get_contract 30 110 ⟨[⟨"X", 7, 100⟩], true⟩ "X" rfl (by decide)⟩

/-! ## C2 -/

/-- C2 counterexample: the cache reports a hit for "X" — a valid, unexpired
entry whose stored identifier is `0` — yet `lookup_series_by_name` does not
return that cached value: the walrus truthiness test treats `0` as a miss,
the external API is called (its answer `5` is returned) and the cache is
overwritten. -/
theorem c2_counterexample :
    TVDBCache.get 7 10 ⟨[⟨"X", 0, 10⟩], true⟩ "X" = Except.ok (some 0) ∧
    lookup_series_by_name (fun _ => .ok (.list [⟨some 5⟩])) 7 10
      ⟨[⟨"X", 0, 10⟩], true⟩ "X" = Except.ok (5, ⟨[⟨"X", 5, 10⟩], true⟩) :=
  ⟨by decide, by decide⟩

/-- C2 (amended): a cache hit short-circuits the resolver — the cached value
is returned, for any lookup service, with the store untouched — provided the
stored identifier is nonzero; a cached `0` is treated as a miss. -/
theorem c2_nonzero_hit_shortcircuit (env : LookupEnv) (expire now : Int)
    (db : DB) (name : String) (cid : Int)
    (hhit : TVDBCache.get expire now db name = Except.ok (some cid))
    (hnz : cid ≠ 0) :
    lookup_series_by_name env expire now db name = Except.ok (cid, db) := by
  unfold lookup_series_by_name
  rw [hhit]
  simp [hnz]

/-- Witness for C2 (amended): a fresh entry "Y" ↦ 5 is served from the cache. -/
theorem c2_witness :
    TVDBCache.get 7 10 ⟨[⟨"Y", 5, 10⟩], true⟩ "Y" = Except.ok (some 5) ∧
    (5 : Int) ≠ 0 ∧
    lookup_series_by_name (fun _ => .reqError) 7 10 ⟨[⟨"Y", 5, 10⟩], true⟩ "Y"
      = Except.ok (5, ⟨[⟨"Y", 5, 10⟩], true⟩) :=
  ⟨by decide, by decide,
    c2_nonzero_hit_shortcircuit _ 7 10 _ "Y" 5 (by decide) (by decide)⟩

/-! ## C3 -/

/-- C3: on a cache miss, a failing lookup call (network error, timeout,
non-success status) or a successful one with an empty result list makes the
resolver return the sentinel `0` without raising and with the cache state
unchanged. -/
theorem c3_failure_sentinel (env : LookupEnv) (expire now : Int) (db : DB)
    (name : String)
    (hmiss : TVDBCache.get expire now db name = Except.ok none)
    (hfail : env name = .reqError ∨ env name = .ok (.list [])) :
    lookup_series_by_name env expire now db name = Except.ok (0, db) := by
  unfold lookup_series_by_name
  rw [hmiss]
  rcases hfail with h | h <;> simp [lookupViaApi, h, Payload.falsy]

/-- Witness for C3: empty cache, lookup service down. -/
theorem c3_witness :
    TVDBCache.get 7 0 ⟨[], true⟩ "A" = Except.ok none ∧
    lookup_series_by_name (fun _ => .reqError) 7 0 ⟨[], true⟩ "A"
      = Except.ok (0, ⟨[], true⟩) :=
  ⟨by decide, c3_failure_sentinel _ 7 0 _ "A" (by decide) (Or.inl rfl)⟩

/-! ## More helper lemmas, on the effect of the upsert -/

/-- After an upsert, `find?` on the upserted name returns the new row. -/
lemma find?_setRows (rows : List Row) (name : String) (id t : Int) :
    (TVDBCache.setRows rows name id t).find? (fun r => r.seriesName == name)
      = some ⟨name, id, t⟩ := by
  simp [TVDBCache.setRows, List.find?_append]

/-- After an upsert, the rows carrying the upserted name are exactly the new
row. -/
lemma filter_setRows_self (rows : List Row) (n : String) (i t : Int) :
    (TVDBCache.setRows rows n i t).filter (fun r => r.seriesName == n)
      = [⟨n, i, t⟩] := by
  simp [TVDBCache.setRows, List.filter_append, List.filter_filter]

/-- An upsert leaves the rows of every other name unchanged. -/
lemma filter_setRows_other (rows : List Row) {n m : String} (hm : m ≠ n)
    (i t : Int) :
    (TVDBCache.setRows rows n i t).filter (fun r => r.seriesName == m)
      = rows.filter (fun r => r.seriesName == m) := by
  have hnm : n ≠ m := Ne.symm hm
  simp only [TVDBCache.setRows, List.filter_append, List.filter_filter]
  have h1 : (List.filter (fun r => r.seriesName == m) [⟨n, i, t⟩] : List Row) = [] := by
    simp [hnm]
  rw [h1, List.append_nil]
  apply List.filter_congr
  intro a _
  by_cases h : a.seriesName = m
  · have hn : a.seriesName ≠ n := by rw [h]; exact hm
    simp [h, hn, hm]
  · simp [h]

/-! ## C4 -/

/-- C4: on a cache miss, a successful lookup with a non-empty result list
makes the resolver take the first result's identifier — later results are
never consulted — write it to the cache for that name, and return it. -/
theorem c4_first_result (env : LookupEnv) (expire now : Int) (db : DB)
    (name : String) (id : Int) (rest : List SeriesResult)
    (hmiss : TVDBCache.get expire now db name = Except.ok none)
    (henv : env name = .ok (.list (⟨some id⟩ :: rest))) :
    ∃ db', TVDBCache.set db name id now = Except.ok db' ∧
      lookup_series_by_name env expire now db name = Except.ok (id, db') := by
  have hok : db.ok = true := db_ok_of_get_ok hmiss
  refine ⟨⟨TVDBCache.setRows db.rows name id now, true⟩, ?_, ?_⟩
  · simp [TVDBCache.set, hok]
  · unfold lookup_series_by_name
    rw [hmiss]
    simp [lookupViaApi, henv, Payload.falsy, TVDBCache.set, hok]

/-- Witness for C4: two candidate results; the first one (id 9) wins. -/
theorem c4_witness :
    TVDBCache.get 7 0 ⟨[], true⟩ "A" = Except.ok none ∧
    (∃ db', TVDBCache.set ⟨[], true⟩ "A" 9 0 = Except.ok db' ∧
      lookup_series_by_name (fun _ => .ok (.list [⟨some 9⟩, ⟨some 11⟩])) 7 0
        ⟨[], true⟩ "A" = Except.ok (9, db')) :=
  ⟨by decide, c4_first_result _ 7 0 _ "A" 9 [⟨some 11⟩] (by decide) rfl⟩

/-! ## C5 -/

/-- C5: on a cache miss with the lookup returning a single result `id`, the
resolver returns `id`, and a later cache read within the expiry window
returns that same `id`. -/
theorem c5_resolve_get_roundtrip (env : LookupEnv) (expire now now2 : Int)
    (db : DB) (name : String) (id : Int)
    (hmiss : TVDBCache.get expire now db name = Except.ok none)
    (henv : env name = .ok (.list [⟨some id⟩]))
    (hfresh : now2 - now < expire) :
    ∃ db', lookup_series_by_name env expire now db name = Except.ok (id, db') ∧
      TVDBCache.get expire now2 db' name = Except.ok (some id) := by
  have hok : db.ok = true := db_ok_of_get_ok hmiss
  refine ⟨⟨TVDBCache.setRows db.rows name id now, true⟩, ?_, ?_⟩
  · unfold lookup_series_by_name
    rw [hmiss]
    simp [lookupViaApi, henv, Payload.falsy, TVDBCache.set, hok]
  · have hc : now2 - expire < now := by omega
    simp [TVDBCache.get, find?_setRows, hc]

/-- Witness for C5: the spec's own example, name "Example" resolving to 42. -/
theorem c5_witness :
    TVDBCache.get 7 0 ⟨[], true⟩ "Example" = Except.ok none ∧
    (3 : Int) - 0 < 7 ∧
    (∃ db', lookup_series_by_name (fun _ => .ok (.list [⟨some 42⟩])) 7 0
        ⟨[], true⟩ "Example" = Except.ok (42, db') ∧
      TVDBCache.get 7 3 db' "Example" = Except.ok (some 42)) :=
  ⟨by decide, by decide,
    c5_resolve_get_roundtrip _ 7 0 3 _ "Example" 42 (by decide) rfl (by decide)⟩

/-! ## C6 -/

/-- Any cache state reached by running operations on top of a state with at
most one row per name again has at most one row per name. -/
lemma count_runOps_le_one : ∀ (ops : List CacheOp) (rows : List Row),
    (∀ name, (rows.filter (fun r => r.seriesName == name)).length ≤ 1) →
    ∀ name, ((ops.foldl applyOp rows).filter (fun r => r.seriesName == name)).length ≤ 1 := by
  intro ops
  induction ops with
  | nil => intro rows h name; exact h name
  | cons op rest ih =>
    intro rows h name
    apply ih
    intro m
    cases op with
    | opGet _ _ => exact h m
    | opSet n i t =>
      by_cases hm : m = n
      · rw [applyOp, hm, filter_setRows_self]
        simp
      · rw [applyOp, filter_setRows_other _ hm]
        exact h m

/-- C6: every cache state reachable from the fresh table by get/set
operations has at most one row per series name, and upserting the same name
twice leaves exactly one row for it, carrying the latest id and timestamp. -/
theorem c6_single_entry_upsert (ops : List CacheOp) (name : String)
    (rows : List Row) (n : String) (i1 t1 i2 t2 : Int) :
    ((runOps ops).filter (fun r => r.seriesName == name)).length ≤ 1 ∧
    (TVDBCache.setRows (TVDBCache.setRows rows n i1 t1) n i2 t2).filter
        (fun r => r.seriesName == n) = [⟨n, i2, t2⟩] :=
  ⟨count_runOps_le_one ops [] (by intro m; simp) name,
    filter_setRows_self _ n i2 t2⟩

/-! ## C7 -/

/-- The post-miss API path never raises on a benign outcome, keeps the store
accessible, and only adds rows for the looked-up name. -/
lemma lookupViaApi_benign (env : LookupEnv) (now : Int) (db : DB) (n : String)
    (hok : db.ok = true) (hb : (env n).benign = true) :
    ∃ id db', lookupViaApi env now db n = Except.ok (id, db') ∧ db'.ok = true ∧
      ∀ r ∈ db'.rows, r.seriesName = n ∨ r ∈ db.rows := by
  unfold lookupViaApi
  cases he : env n with
  | reqError => exact ⟨0, db, rfl, hok, fun r hr => Or.inr hr⟩
  | ok p =>
    rw [he] at hb
    cases p with
    | notList t =>
      have ht : t = false := by simpa [LookupOutcome.benign] using hb
      subst ht
      refine ⟨0, db, ?_, hok, fun r hr => Or.inr hr⟩
      simp [Payload.falsy]
    | list rs =>
      cases rs with
      | nil =>
        refine ⟨0, db, ?_, hok, fun r hr => Or.inr hr⟩
        simp [Payload.falsy]
      | cons r0 rest =>
        have hsome : r0.tvdbId.isSome = true := by
          simpa [LookupOutcome.benign] using hb
        obtain ⟨id, hid⟩ := Option.isSome_iff_exists.mp hsome
        refine ⟨id, ⟨TVDBCache.setRows db.rows n id now, true⟩, ?_, rfl, ?_⟩
        · simp [Payload.falsy, hid, TVDBCache.set, hok]
        · intro r hr
          simp only [TVDBCache.setRows] at hr
          rcases List.mem_append.mp hr with h | h
          · exact Or.inr (List.mem_of_mem_filter h)
          · rw [List.mem_singleton] at h
            rw [h]
            exact Or.inl rfl

/-- The resolver never raises on a benign outcome and an accessible store,
keeps the store accessible, and only adds rows for the resolved name. -/
lemma lookup_benign_total (env : LookupEnv) (expire now : Int) (db : DB)
    (n : String) (hok : db.ok = true) (hb : (env n).benign = true) :
    ∃ id db', lookup_series_by_name env expire now db n = Except.ok (id, db') ∧
      db'.ok = true ∧ ∀ r ∈ db'.rows, r.seriesName = n ∨ r ∈ db.rows := by
  obtain ⟨v, hv⟩ : ∃ v, TVDBCache.get expire now db n = Except.ok v :=
    ⟨(match db.rows.find? (fun r => r.seriesName == n) with
        | some r => if now - expire < r.createdAt then some r.tvdbId else none
        | none => none), by simp [TVDBCache.get, hok]⟩
  unfold lookup_series_by_name
  rw [hv]
  cases v with
  | none => simpa using lookupViaApi_benign env now db n hok hb
  | some cid =>
    rcases eq_or_ne cid 0 with rfl | hc
    · simpa using lookupViaApi_benign env now db n hok hb
    · exact ⟨cid, db, by simp [hc], hok, fun r hr => Or.inr hr⟩

/-- The comprehension succeeds on a list of names with benign outcomes:
one item per name, titles in order, each id produced by the resolver. -/
lemma mapResolve_benign (env : LookupEnv) (expire now : Int) :
    ∀ (names : List String) (db : DB), db.ok = true →
    (∀ n ∈ names, (env n).benign = true) →
    ∃ items db', mapResolve env expire now db names = (some items, db') ∧
      items.map CollectionItem.title = names ∧
      ∀ item ∈ items, ∃ db1 db2, db1.ok = true ∧
        lookup_series_by_name env expire now db1 item.title
          = Except.ok (item.tvdbId, db2) := by
  intro names
  induction names with
  | nil =>
    intro db hok _
    exact ⟨[], db, rfl, rfl, by intro item h; cases h⟩
  | cons n rest ih =>
    intro db hok hb
    obtain ⟨id, db', hlk, hok', _⟩ :=
      lookup_benign_total env expire now db n hok (hb n (by simp))
    obtain ⟨items, db'', hmap, htitles, hres⟩ :=
      ih db' hok' (fun m hm => hb m (by simp [hm]))
    refine ⟨⟨n, id⟩ :: items, db'', ?_, ?_, ?_⟩
    · simp [mapResolve, hlk, hmap]
    · simp [htitles]
    · intro item hitem
      rcases List.mem_cons.mp hitem with rfl | h
      · exact ⟨db, db', hok, hlk⟩
      · exact hres item h

/-- C7: a successfully fetched collection is mapped to exactly one item per
source entry, in upstream order, each carrying the source display name as
title and a resolver-produced id for that title (0 when unresolved), as long
as every lookup outcome is one the resolver handles without raising. -/
theorem c7_collection_mapping (bgmNames : List String) (env : LookupEnv)
    (expire now : Int) (db : DB)
    (hok : db.ok = true) (hb : ∀ n, (env n).benign = true) :
    ((get_bgm_collection (.ok bgmNames) env expire now db).1.map
        CollectionItem.title = bgmNames) ∧
    ∀ item ∈ (get_bgm_collection (.ok bgmNames) env expire now db).1,
      ∃ db1 db2, db1.ok = true ∧
        lookup_series_by_name env expire now db1 item.title
          = Except.ok (item.tvdbId, db2) := by
  obtain ⟨items, db', hmap, htitles, hres⟩ :=
    mapResolve_benign env expire now bgmNames db hok (fun n _ => hb n)
  have hcoll : get_bgm_collection (.ok bgmNames) env expire now db = (items, db') := by
    simp [get_bgm_collection, hmap]
  rw [hcoll]
  exact ⟨htitles, hres⟩

/-- Witness for C7: the spec's example — names "A", "B", resolver yielding
1 for "A" and 0 (request failure) for "B". -/
theorem c7_witness :
    (∀ n, ((fun m => if m = "A" then LookupOutcome.ok (.list [⟨some 1⟩])
        else .reqError) n).benign = true) ∧
    ((get_bgm_collection (.ok ["A", "B"])
        (fun m => if m = "A" then LookupOutcome.ok (.list [⟨some 1⟩])
          else .reqError) 7 0 ⟨[], true⟩).1 = [⟨"A", 1⟩, ⟨"B", 0⟩]) ∧
    (((get_bgm_collection (.ok ["A", "B"])
        (fun m => if m = "A" then LookupOutcome.ok (.list [⟨some 1⟩])
          else .reqError) 7 0 ⟨[], true⟩).1.map CollectionItem.title = ["A", "B"]) ∧
     ∀ item ∈ (get_bgm_collection (.ok ["A", "B"])
        (fun m => if m = "A" then LookupOutcome.ok (.list [⟨some 1⟩])
          else .reqError) 7 0 ⟨[], true⟩).1,
      ∃ db1 db2, db1.ok = true ∧
        lookup_series_by_name
          (fun m => if m = "A" then LookupOutcome.ok (.list [⟨some 1⟩])
            else .reqError) 7 0 db1 item.title
          = Except.ok (item.tvdbId, db2)) := by
  have hb : ∀ n, ((fun m => if m = "A" then LookupOutcome.ok (.list [⟨some 1⟩])
      else .reqError) n).benign = true := by
    intro n
    by_cases h : n = "A" <;> simp [h, LookupOutcome.benign]
  exact ⟨hb, by decide, c7_collection_mapping ["A", "B"] _ 7 0 ⟨[], true⟩ rfl hb⟩

/-! ## C8 -/

/-- C8: any failure contacting the tracking service degrades the fetch to the
empty list without raising, and the endpoint still answers 200 with `[]`. -/
theorem c8_fetch_degradation (env : LookupEnv) (expire now : Int) (db : DB) :
    get_bgm_collection .failure env expire now db = ([], db) ∧
    get_list .failure env expire now db = (200, []) :=
  ⟨rfl, rfl⟩

/-! ## C9 -/

/-- C9 counterexample: with the cache store inaccessible, the cache read and
write both raise and the exception escapes the resolver — but the
collection fetcher's catch-all converts it into the empty collection, and
the endpoint answers 200 with `[]`: the storage failure is masked, exactly
the degraded value the claim rules out. -/
theorem c9_counterexample :
    TVDBCache.get 7 0 ⟨[], false⟩ "A" = Except.error () ∧
    TVDBCache.set ⟨[], false⟩ "A" 1 0 = Except.error () ∧
    lookup_series_by_name (fun _ => .reqError) 7 0 ⟨[], false⟩ "A"
      = Except.error () ∧
    get_bgm_collection (.ok ["A"]) (fun _ => .reqError) 7 0 ⟨[], false⟩
      = ([], ⟨[], false⟩) ∧
    get_list (.ok ["A"]) (fun _ => .reqError) 7 0 ⟨[], false⟩ = (200, []) :=
  ⟨rfl, rfl, rfl, rfl, rfl⟩

/-- C9 (amended): a storage failure does escape the resolver unmasked — it is
never turned into the sentinel `0` there — but during a request it is caught
by the collection fetcher's catch-all and converted into an empty collection,
so the endpoint responds 200 with `[]` instead of surfacing a fatal error. -/
theorem c9_storage_error (env : LookupEnv) (expire now : Int) (db : DB)
    (name : String) (rest : List String) (hbad : db.ok = false) :
    lookup_series_by_name env expire now db name = Except.error () ∧
    get_bgm_collection (.ok (name :: rest)) env expire now db = ([], db) ∧
    get_list (.ok (name :: rest)) env expire now db = (200, []) := by
  have hlk : lookup_series_by_name env expire now db name = Except.error () := by
    unfold lookup_series_by_name
    simp [TVDBCache.get, hbad]
  refine ⟨hlk, ?_, ?_⟩
  · simp [get_bgm_collection, mapResolve, hlk]
  · simp [get_list, get_bgm_collection, mapResolve, hlk]

/-- Witness for C9 (amended): an inaccessible store behind a one-item
collection. -/
theorem c9_witness :
    ((⟨[], false⟩ : DB).ok = false) ∧
    (lookup_series_by_name (fun _ => .reqError) 7 0 ⟨[], false⟩ "B"
        = Except.error () ∧
     get_bgm_collection (.ok ["B"]) (fun _ => .reqError) 7 0 ⟨[], false⟩
        = ([], ⟨[], false⟩) ∧
     get_list (.ok ["B"]) (fun _ => .reqError) 7 0 ⟨[], false⟩ = (200, [])) :=
  ⟨rfl, c9_storage_error _ 7 0 _ "B" [] rfl⟩

/-! ## C10 -/

/-- A lookup outcome whose handling raises out of `lookup_series_by_name` on
a cache miss: a truthy non-list payload (`TypeError`/`KeyError` on
subscripting) or a non-empty list whose first result lacks the `tvdbId`
field (`KeyError`). -/
def LookupOutcome.raising : LookupOutcome → Bool
  | .ok (.notList t) => t
  | .ok (.list (r :: _)) => !r.tvdbId.isSome
  | _ => false

/-- On a cache miss against an accessible store, a raising lookup outcome
makes the resolver itself raise. -/
lemma lookup_raises (env : LookupEnv) (expire now : Int) (db : DB)
    (name : String) (hok : db.ok = true)
    (hmiss : ∀ r ∈ db.rows, r.seriesName ≠ name)
    (hr : (env name).raising = true) :
    lookup_series_by_name env expire now db name = Except.error () := by
  have hfind : db.rows.find? (fun r => r.seriesName == name) = none := by
    rw [List.find?_eq_none]
    intro r hrr
    simpa using hmiss r hrr
  have hget : TVDBCache.get expire now db name = Except.ok none := by
    simp [TVDBCache.get, hok, hfind]
  unfold lookup_series_by_name
  rw [hget]
  show lookupViaApi env now db name = Except.error ()
  unfold lookupViaApi
  cases he : env name with
  | reqError => rw [he] at hr; simp [LookupOutcome.raising] at hr
  | ok p =>
    rw [he] at hr
    cases p with
    | notList t =>
      have ht : t = true := by simpa [LookupOutcome.raising] using hr
      subst ht
      simp [Payload.falsy]
    | list rs =>
      cases rs with
      | nil => simp [LookupOutcome.raising] at hr
      | cons r0 rest =>
        have h0 : r0.tvdbId = none := by
          have := by simpa [LookupOutcome.raising] using hr
          exact Option.not_isSome_iff_eq_none.mp (by simpa using this)
        simp [Payload.falsy, h0]

/-- Threading a prefix of benign names, the comprehension reaches the
malformed name with the store still accessible and still holding no row for
it, so the whole comprehension aborts. -/
lemma mapResolve_raises (env : LookupEnv) (expire now : Int) :
    ∀ (pre : List String) (db : DB) (post : List String) (name : String),
    db.ok = true → (∀ n ∈ pre, (env n).benign = true) →
    (∀ r ∈ db.rows, r.seriesName ≠ name) → name ∉ pre →
    (env name).raising = true →
    ∃ db', mapResolve env expire now db (pre ++ name :: post) = (none, db') := by
  intro pre
  induction pre with
  | nil =>
    intro db post name hok _ hmiss _ hr
    have hlk := lookup_raises env expire now db name hok hmiss hr
    exact ⟨db, by simp [mapResolve, hlk]⟩
  | cons m pre2 ih =>
    intro db post name hok hb hmiss hnp hr
    obtain ⟨id, db', hlk, hok', hsub⟩ :=
      lookup_benign_total env expire now db m hok (hb m (by simp))
    have hmiss' : ∀ r ∈ db'.rows, r.seriesName ≠ name := by
      intro r hrr
      rcases hsub r hrr with h | h
      · rw [h]
        intro he
        exact hnp (by rw [← he]; exact List.mem_cons_self m pre2)
      · exact hmiss r h
    have hnp' : name ∉ pre2 := fun hc => hnp (List.mem_cons_of_mem _ hc)
    obtain ⟨db'', hmap⟩ :=
      ih db' post name hok' (fun n hn => hb n (List.mem_cons_of_mem _ hn)) hmiss' hnp' hr
    exact ⟨db'', by simp [List.cons_append, mapResolve, hlk, hmap]⟩

/-- C10 (amended): a lookup payload that raises when read — a truthy
non-list, or a first result lacking the identifier field — escapes the
resolver (only request-level errors are handled there), is caught at the
collection-fetch level, and the whole fetch returns `[]`; but a falsy
malformed payload (empty object, empty string, `null`, `0`, `false`) is
treated like an empty result set instead: the item degrades to id `0` and
processing continues. -/
theorem c10_truthy_malformed_aborts (env : LookupEnv) (expire now : Int)
    (db : DB) (pre post : List String) (name : String)
    (hok : db.ok = true)
    (hb : ∀ n ∈ pre, (env n).benign = true)
    (hr : (env name).raising = true)
    (hmiss : ∀ r ∈ db.rows, r.seriesName ≠ name)
    (hnp : name ∉ pre) :
    (∀ db1 : DB, db1.ok = true → (∀ r ∈ db1.rows, r.seriesName ≠ name) →
      lookup_series_by_name env expire now db1 name = Except.error ()) ∧
    ∃ db', get_bgm_collection (.ok (pre ++ name :: post)) env expire now db
      = ([], db') := by
  refine ⟨fun db1 h1 h2 => lookup_raises env expire now db1 name h1 h2 hr, ?_⟩
  obtain ⟨db', hmap⟩ := mapResolve_raises env expire now pre db post name hok hb hmiss hnp hr
  exact ⟨db', by simp [get_bgm_collection, hmap]⟩

/-- C10 counterexample: for item "A" the lookup succeeds with the (valid
JSON, malformed for this purpose) non-list payload modelling an empty
object: no exception is raised — the falsiness guard returns the sentinel —
so "A" degrades to id 0, the following item "B" is still processed, and the
fetch does not return `[]`. -/
theorem c10_counterexample :
    lookup_series_by_name
        (fun n => if n = "A" then .ok (.notList false) else .ok (.list [⟨some 2⟩]))
        7 0 ⟨[], true⟩ "A" = Except.ok (0, ⟨[], true⟩) ∧
    get_bgm_collection (.ok ["A", "B"])
        (fun n => if n = "A" then .ok (.notList false) else .ok (.list [⟨some 2⟩]))
        7 0 ⟨[], true⟩ = ([⟨"A", 0⟩, ⟨"B", 2⟩], ⟨[⟨"B", 2, 0⟩], true⟩) :=
  ⟨by decide, by decide⟩

/-- Witness for C10 (amended): benign "P", then "M" with a truthy non-list
payload, then "Q" — the fetch aborts to `[]`. -/
theorem c10_witness :
    ((⟨[], true⟩ : DB).ok = true) ∧
    (∀ n ∈ ["P"], (((fun m => if m = "P" then LookupOutcome.ok (.list [⟨some 1⟩])
        else if m = "M" then .ok (.notList true)
        else .ok (.list [⟨some 3⟩])) : LookupEnv) n).benign = true) ∧
    ((((fun m => if m = "P" then LookupOutcome.ok (.list [⟨some 1⟩])
        else if m = "M" then .ok (.notList true)
        else .ok (.list [⟨some 3⟩])) : LookupEnv) "M").raising = true) ∧
    (∀ r ∈ (⟨[], true⟩ : DB).rows, r.seriesName ≠ "M") ∧
    ("M" ∉ ["P"]) ∧
    ((∀ db1 : DB, db1.ok = true → (∀ r ∈ db1.rows, r.seriesName ≠ "M") →
      lookup_series_by_name
        (fun m => if m = "P" then LookupOutcome.ok (.list [⟨some 1⟩])
          else if m = "M" then .ok (.notList true)
          else .ok (.list [⟨some 3⟩])) 7 0 db1 "M" = Except.error ()) ∧
     ∃ db', get_bgm_collection (.ok (["P"] ++ "M" :: ["Q"]))
        (fun m => if m = "P" then LookupOutcome.ok (.list [⟨some 1⟩])
          else if m = "M" then .ok (.notList true)
          else .ok (.list [⟨some 3⟩])) 7 0 ⟨[], true⟩ = ([], db')) :=
  ⟨rfl, by decide, by decide, by decide, by decide,
    c10_truthy_malformed_aborts _ 7 0 _ ["P"] ["Q"] "M" rfl (by decide) (by decide)
      (by decide) (by decide)⟩
